import Mathlib

/-!
Shallow embedding of `eol-check/eol_check.py`: data model, the EOL resolver
(`_resolve_eol`), the notification decision flow (`_open_issues`), the
calendar flow (`_calendar`), and the title/body templates.  External effects
(HTTP GET, the `gh` subprocess, the environment) are modelled as explicit
oracle parameters; exceptions are modelled with `Except`/error values, and
the list of HTTP requests issued is returned alongside each result.
-/

namespace EolCheck

/-- Python exceptions and fatal conditions that can arise in the modelled code.
`valueError` carries the message string built in the source. -/
inductive PyError where
  | keyError (k : String)
  | typeError
  | attrError
  | valueError (msg : String)
  | httpError (status : Nat)
deriving DecidableEq, Repr

/-- A minimal model of the JSON values the script manipulates
(`rv.json()` payloads). -/
inductive JVal where
  | null
  | str (s : String)
  | obj (fields : List (String × JVal))
  | arr (items : List JVal)

/-- Python `v == s` for an optional JSON value against a `str`: true exactly
for a string value with the same characters (`None` and non-strings compare
unequal, never raise). -/
def pyEqStr : Option JVal → String → Bool
  | some (.str n), v => n = v
  | _, _ => false

/-- `v[k]` on a Python value: dict lookup (KeyError when the key is absent),
TypeError on every non-dict value. -/
def JVal.index : JVal → String → Except PyError JVal
  | .obj fs, k =>
    match fs.lookup k with
    | some v => .ok v
    | none => .error (.keyError k)
  | _, _ => .error .typeError

/-- `v.get(k)` on a Python value: `None`-returning dict lookup; AttributeError
on every non-dict value (strings, lists, `None` have no `.get`). -/
def JVal.get : JVal → String → Except PyError (Option JVal)
  | .obj fs, k => .ok (fs.lookup k)
  | _, _ => .error .attrError

/-- Python truthiness of a JSON value: `None`, `""`, `[]`, `\x7b\x7d` are falsy. -/
def JVal.falsy : JVal → Bool
  | .null => true
  | .str s => s = ""
  | .arr xs => xs.isEmpty
  | .obj fs => fs.isEmpty

/-- `for x in v`: lists yield their items, strings their characters (as
one-character strings), dicts their keys; `None` is not iterable. -/
def JVal.iterate : JVal → Except PyError (List JVal)
  | .arr xs => .ok xs
  | .str s => .ok (s.data.map (fun c => .str (String.mk [c])))
  | .obj fs => .ok (fs.map (fun p => .str p.1))
  | .null => .error .typeError

/-- `datetime.date`: a calendar date (proleptic Gregorian). -/
structure Date where
  year : Nat
  month : Nat
  day : Nat
deriving DecidableEq, Repr

def isLeap (y : Nat) : Bool := (y % 4 = 0 && y % 100 != 0) || y % 400 = 0

/-- Days in month `m` of year `y` (1-based month). -/
def daysInMonth (y m : Nat) : Nat :=
  if m = 2 then (if isLeap y then 29 else 28)
  else if m = 4 || m = 6 || m = 9 || m = 11 then 30
  else 31

/-- Days before month `m` in a non-leap year (1-based month). -/
def cumDays (m : Nat) : Nat :=
  [0, 31, 59, 90, 120, 151, 181, 212, 243, 273, 304, 334].getD (m - 1) 0

/-- `date.toordinal()`: day number of the date in the proleptic Gregorian
calendar, with 0001-01-01 as day 1. -/
def Date.toordinal (d : Date) : Int :=
  let y : Int := (d.year : Int) - 1
  365 * y + y / 4 - y / 100 + y / 400
    + (cumDays d.month : Int)
    + (if 2 < d.month ∧ isLeap d.year then 1 else 0)
    + (d.day : Int)

def isDigit (c : Char) : Bool := '0' ≤ c && c ≤ '9'

def digitVal (c : Char) : Nat := c.toNat - '0'.toNat

def parseNat (cs : List Char) : Nat := cs.foldl (fun a c => 10 * a + digitVal c) 0

/-- `_iso` / `datetime.date.fromisoformat`: parse a `YYYY-MM-DD` string,
rejecting malformed strings and out-of-range calendar components. -/
def iso (s : String) : Except PyError Date :=
  match s.data with
  | [y1, y2, y3, y4, h1, m1, m2, h2, d1, d2] =>
    if ([y1, y2, y3, y4, m1, m2, d1, d2].all isDigit && h1 = '-' && h2 = '-') then
      let y := parseNat [y1, y2, y3, y4]
      let m := parseNat [m1, m2]
      let d := parseNat [d1, d2]
      if 1 ≤ y ∧ 1 ≤ m ∧ m ≤ 12 ∧ 1 ≤ d ∧ d ≤ daysInMonth y m then .ok ⟨y, m, d⟩
      else .error (.valueError ("Invalid isoformat string: " ++ s))
    else .error (.valueError ("Invalid isoformat string: " ++ s))
  | _ => .error (.valueError ("Invalid isoformat string: " ++ s))

/-- Left-pad the decimal representation of `n` with zeros to width `w`. -/
def zfill (w n : Nat) : String :=
  let s := toString n
  String.mk (List.replicate (w - s.length) '0') ++ s

/-- `date.isoformat()`: render as `YYYY-MM-DD`. -/
def Date.isoformat (d : Date) : String :=
  zfill 4 d.year ++ "-" ++ zfill 2 d.month ++ "-" ++ zfill 2 d.day

/-- One catalog entry, as loaded from the YAML config.  Optional keys of the
Python dict are `Option` fields; `product` and `version` are the keys every
code path reads unconditionally. -/
structure Entry where
  product : String
  version : String
  source : Option String := none
  eol_date : Option String := none
  api_endpoint : Option String := none
  issue_repo : Option String := none
  warn_days : Option Int := none
deriving DecidableEq, Repr

/-- An HTTP response as seen by the script: status code and decoded JSON body. -/
structure HttpResp where
  status : Nat
  body : JVal

/-- The HTTP oracle: `requests.get` keyed by URL. -/
def HttpOracle := String → HttpResp

/-- `TITLE_TMPL.format(product=..., version=..., eol_date=...)`. -/
def TITLE_TMPL (product version eol_date : String) : String :=
  product ++ " " ++ version ++ " reaches EOL on " ++ eol_date

/-- `BODY_TMPL.format(product=..., version=..., eol_date=..., source_ref=...)`. -/
def BODY_TMPL (product version eol_date source_ref : String) : String :=
  "⚠️ **End‑of‑life approaching**\n\n"
    ++ "* **Product:** " ++ product ++ " " ++ version ++ "\n"
    ++ "* **EOL date:** " ++ eol_date ++ "\n\n"
    ++ "_Source: " ++ source_ref ++ "_\n"

/-- `payload["result"]["releases"]` wrapped in the source's
`try/except (KeyError, TypeError)` that re-raises a schema `ValueError`
naming the endpoint. -/
def getReleases (ep : String) (payload : JVal) : Except PyError JVal :=
  match payload.index "result" >>= (·.index "releases") with
  | .ok v => .ok v
  | .error (.keyError _) =>
    .error (.valueError ("Unexpected schema from " ++ ep ++ "; expected result.releases"))
  | .error .typeError =>
    .error (.valueError ("Unexpected schema from " ++ ep ++ "; expected result.releases"))
  | .error e => .error e

/-- The `for rel in releases` loop of `_resolve_eol`: first record whose
`name` equals `version` wins; a falsy/missing `eolFrom` on it raises;
falling off the loop raises "not found". -/
def scanReleases (product version ep : String) : List JVal → Except PyError Date
  | [] => .error (.valueError (product ++ " " ++ version ++ " not found @ " ++ ep))
  | rel :: rest => do
    let nameV ← rel.get "name"
    if pyEqStr nameV version then
      let eolV ← rel.get "eolFrom"
      match eolV with
      | none => .error (.valueError ("eolFrom missing for " ++ product ++ " " ++ version))
      | some v =>
        if v.falsy then
          .error (.valueError ("eolFrom missing for " ++ product ++ " " ++ version))
        else
          match v with
          | .str s => iso s
          | _ => .error .typeError
    else scanReleases product version ep rest

/-- The API branch of `_resolve_eol`: read `entry["api_endpoint"]`, issue one
GET, `raise_for_status()` (which raises exactly for 4xx/5xx), check the
schema, scan the releases.  The second component lists the requests issued. -/
def resolveApi (http : HttpOracle) (e : Entry) : Except PyError Date × List String :=
  match e.api_endpoint with
  | none => (.error (.keyError "api_endpoint"), [])
  | some ep =>
    let rv := http ep
    if 400 ≤ rv.status ∧ rv.status < 600 then (.error (.httpError rv.status), [ep])
    else
      let r : Except PyError Date := do
        let releases ← getReleases ep rv.body
        let rels ← releases.iterate
        scanReleases e.product e.version ep rels
      (r, [ep])

/-- `_resolve_eol`: `entry.get("source", "api") == "manual"` short-circuits to
parsing `entry["eol_date"]`; every other `source` value takes the API path. -/
def resolve_eol (http : HttpOracle) (e : Entry) : Except PyError Date × List String :=
  if e.source.getD "api" = "manual" then
    match e.eol_date with
    | none => (.error (.keyError "eol_date"), [])
    | some s => (iso s, [])
  else resolveApi http e

/-- `_days_until`, with `today` made an explicit parameter:
`(d - today).days`. -/
def days_until (d today : Date) : Int := d.toordinal - today.toordinal

/-- The oracle for `_issue_exists` (a `gh issue list --state all` search by
title): it may fail, since the subprocess runs with `check=True`. -/
def ExistsOracle := String → String → Except PyError Bool

/-- What `_open_issues` does with one entry.  `created` records the exact
repo, title and body passed to `_create_issue`. -/
inductive EntryOutcome where
  | skippedNoRepo
  | notDue
  | alreadyExists (repo title : String)
  | created (repo title body : String)
deriving DecidableEq, Repr

/-- Whether the decision engine notified for this entry: it reached the
publisher (found a duplicate or created an issue). -/
def notified : Except PyError EntryOutcome → Bool
  | .ok (.alreadyExists _ _) => true
  | .ok (.created _ _ _) => true
  | _ => false

/-- The stdout line(s) `_open_issues` prints for one entry's outcome. -/
def outcomeMsg : EntryOutcome → List String
  | .alreadyExists repo title => ["Issue already exists in " ++ repo ++ ": " ++ title]
  | .created repo title _ => ["Created issue in " ++ repo ++ ": " ++ title]
  | _ => []

/-- The body of the `for e in entries` loop of `_open_issues`: skip entries
with a falsy `issue_repo`, read `warn_days` (default 30), resolve the EOL,
skip when outside the warning window, build the title, probe the publisher,
and either report a duplicate or create the issue.  The second component
lists the HTTP requests issued for this entry. -/
def processEntry (http : HttpOracle) (ex : ExistsOracle) (today : Date) (e : Entry) :
    Except PyError EntryOutcome × List String :=
  match e.issue_repo with
  | none => (.ok .skippedNoRepo, [])
  | some repo =>
    if repo = "" then (.ok .skippedNoRepo, [])
    else
      let warn := e.warn_days.getD 30
      match resolve_eol http e with
      | (.error err, reqs) => (.error err, reqs)
      | (.ok eol, reqs) =>
        if days_until eol today > warn then (.ok .notDue, reqs)
        else
          let title := TITLE_TMPL e.product e.version eol.isoformat
          match ex repo title with
          | .error err => (.error err, reqs)
          | .ok true => (.ok (.alreadyExists repo title), reqs)
          | .ok false =>
            let body := BODY_TMPL e.product e.version eol.isoformat
              (e.api_endpoint.getD "manual entry")
            (.ok (.created repo title body), reqs)

/-- The `for` loop of `_open_issues` over the whole catalog.  An uncaught
exception aborts the loop: the trace of outcomes stops at the failing entry
and the error is reported as the second component. -/
def openIssuesLoop (http : HttpOracle) (ex : ExistsOracle) (today : Date) :
    List Entry → List EntryOutcome × Option PyError
  | [] => ([], none)
  | e :: rest =>
    match (processEntry http ex today e).1 with
    | .error err => ([], some err)
    | .ok o =>
      let r := openIssuesLoop http ex today rest
      (o :: r.1, r.2)

/-- The process environment, reduced to the one variable the script reads. -/
structure Env where
  gh_token : Option String
deriving DecidableEq, Repr

/-- Observable result of an `open-issues` run: exit status, stderr lines,
the per-entry outcome trace, and the uncaught exception if one unwound the
loop. -/
structure RunResult where
  exitCode : Nat
  stderr : List String
  outcomes : List EntryOutcome
  aborted : Option PyError
deriving DecidableEq, Repr

/-- `_open_issues`: a falsy `GH_TOKEN` (unset or empty) prints a diagnostic
to stderr and exits 1 before the loop touches any entry; otherwise the loop
runs, and an uncaught exception makes the interpreter exit non-zero. -/
def open_issues (env : Env) (http : HttpOracle) (ex : ExistsOracle) (today : Date)
    (entries : List Entry) : RunResult :=
  if env.gh_token.getD "" = "" then
    { exitCode := 1, stderr := ["ERROR: GH_TOKEN env var not set"],
      outcomes := [], aborted := none }
  else
    let r := openIssuesLoop http ex today entries
    { exitCode := if r.2.isSome then 1 else 0, stderr := [],
      outcomes := r.1, aborted := r.2 }

/-- One all-day event produced by `_calendar` for an entry. -/
structure CalEvent where
  name : String
  uid : String
  description : String
  eolDate : Date
deriving DecidableEq, Repr

/-- The loop of `_calendar`: resolve every entry (whether or not it has an
`issue_repo`) and build its event; an uncaught exception aborts the loop. -/
def calendarLoop (http : HttpOracle) : List Entry → List CalEvent × Option PyError
  | [] => ([], none)
  | e :: rest =>
    match (resolve_eol http e).1 with
    | .error err => ([], some err)
    | .ok eol =>
      let evt : CalEvent :=
        { name := e.product ++ " " ++ e.version ++ " EOL",
          uid := e.product ++ "-" ++ e.version ++ "@eol-checks",
          description := TITLE_TMPL e.product e.version eol.isoformat,
          eolDate := eol }
      let r := calendarLoop http rest
      (evt :: r.1, r.2)

/-- The two subcommands of the CLI. -/
inductive Cmd where
  | generateIcs
  | openIssues
deriving DecidableEq, Repr

/-- Result of a CLI invocation: either an issue run or a calendar run. -/
inductive CliResult where
  | issuesResult (r : RunResult)
  | calResult (events : List CalEvent) (err : Option PyError)
deriving DecidableEq, Repr

/-- `main`'s dispatch on the subcommand.  `_calendar` never consults the
environment, which is why the `generate-ics` arm ignores `env`, exactly as
the source's `_calendar` never reads `os.environ`. -/
def runCLI (cmd : Cmd) (env : Env) (http : HttpOracle) (ex : ExistsOracle)
    (today : Date) (entries : List Entry) : CliResult :=
  match cmd with
  | .generateIcs =>
    let r := calendarLoop http entries
    .calResult r.1 r.2
  | .openIssues => .issuesResult (open_issues env http ex today entries)

/-! ## Concrete fixtures used by witnesses and counterexamples -/

/-- An HTTP oracle that is never consulted by manual-source fixtures. -/
def httpNone : HttpOracle := fun _ => ⟨200, .null⟩

/-- A publisher oracle reporting that no issue with the title exists. -/
def exFalse : ExistsOracle := fun _ _ => .ok false

/-- A publisher oracle reporting that an issue with the title already exists. -/
def exTrue : ExistsOracle := fun _ _ => .ok true

/-- The manual-source entry of the spec's end-to-end scenarios 1 and 2. -/
def eFoo : Entry :=
  { product := "Foo", version := "1.0", source := some "manual",
    eol_date := some "2024-01-01", issue_repo := some "org/repo", warn_days := some 30 }

/-- The payload of the spec's end-to-end scenario 3. -/
def pay3 : JVal :=
  .obj [("result", .obj [("releases",
    .arr [.obj [("name", .str "2.0"), ("eolFrom", .str "2025-05-01")]])])]

/-- An HTTP oracle serving `pay3` with status 200. -/
def http3 : HttpOracle := fun _ => ⟨200, pay3⟩

/-- An HTTP oracle serving `pay3` with status 304 (not an error for
`raise_for_status`). -/
def http304 : HttpOracle := fun _ => ⟨304, pay3⟩

/-- The api-source entry of the spec's end-to-end scenario 3. -/
def eApi : Entry :=
  { product := "Bar", version := "2.0", source := some "api",
    api_endpoint := some "https://ep", issue_repo := some "org/repo" }

/-- A notification-eligible manual entry whose `eol_date` key is missing, so
its resolution raises. -/
def eBad : Entry :=
  { product := "Bad", version := "1", source := some "manual", issue_repo := some "org/r" }

/-- A well-formed notification-eligible manual entry, long past EOL. -/
def eGood : Entry :=
  { product := "Good", version := "2", source := some "manual",
    eol_date := some "2020-01-01", issue_repo := some "org/r" }

/-- A manual-source entry that also carries an `api_endpoint` key. -/
def eManualEp : Entry :=
  { product := "Foo", version := "1.0", source := some "manual",
    eol_date := some "2024-01-01", api_endpoint := some "https://example.com/api",
    issue_repo := some "org/repo" }

/-- A calendar-only entry: api-source, close to EOL, but no `issue_repo`. -/
def eNoRepo : Entry :=
  { product := "Baz", version := "3", source := some "api",
    api_endpoint := some "https://ep3" }

/-- An entry whose `source` value is the case variant "Manual". -/
def eCaseVariant : Entry :=
  { product := "Qux", version := "4", source := some "Manual",
    eol_date := some "2024-01-01" }

/-- An HTTP oracle answering 404 with the scenario-3 payload. -/
def http404 : HttpOracle := fun _ => ⟨404, pay3⟩

/-- An HTTP oracle whose payload has no `result` key. -/
def httpBadSchema : HttpOracle := fun _ => ⟨200, .obj [("foo", .null)]⟩

/-- An HTTP oracle whose `result` object has no `releases` key. -/
def httpNoRel : HttpOracle := fun _ => ⟨200, .obj [("result", .obj [("x", .null)])]⟩

/-- An HTTP oracle whose releases contain no record named "2.0". -/
def httpNoMatch : HttpOracle :=
  fun _ => ⟨200, .obj [("result", .obj [("releases", .arr [.obj [("name", .str "9.9")]])])]⟩

/-- An HTTP oracle whose matching release lacks the `eolFrom` key. -/
def httpNoEol : HttpOracle :=
  fun _ => ⟨200, .obj [("result", .obj [("releases", .arr [.obj [("name", .str "2.0")]])])]⟩

/-! ## Helper lemmas -/

/-- `(a ++ b).data` unfolds to list append. -/
theorem stringDataAppend (a b : String) : (a ++ b).data = a.data ++ b.data := rfl

/-- Bind on a successful `Except` computation applies the continuation. -/
theorem exceptOkBind {ε α β : Type} (x : α) (f : α → Except ε β) :
    (Except.ok x : Except ε α) >>= f = f x := rfl

/-- Bind on a failed `Except` computation propagates the error. -/
theorem exceptErrBind {ε α β : Type} (err : ε) (f : α → Except ε β) :
    (Except.error err : Except ε α) >>= f = .error err := rfl

/-- On a non-manual entry with an endpoint whose response passes
`raise_for_status`, `_resolve_eol` is the schema-check/scan pipeline and
issues exactly the one request. -/
theorem resolve_eol_api_unfold (http : HttpOracle) (e : Entry) (ep : String)
    (hsrc : e.source.getD "api" ≠ "manual") (hep : e.api_endpoint = some ep)
    (hstatus : ¬(400 ≤ (http ep).status ∧ (http ep).status < 600)) :
    resolve_eol http e =
      ((getReleases ep (http ep).body >>= fun releases =>
        releases.iterate >>= fun rels =>
        scanReleases e.product e.version ep rels), [ep]) := by
  unfold resolve_eol resolveApi
  rw [if_neg hsrc, hep]
  simp only [if_neg hstatus]

/-- Records that are dicts whose `name` does not match are skipped by the
release scan. -/
theorem scanReleases_skip (product version ep : String) (pre rest : List JVal)
    (hpre : ∀ r ∈ pre, ∃ fs, r = .obj fs ∧ pyEqStr (fs.lookup "name") version = false) :
    scanReleases product version ep (pre ++ rest) = scanReleases product version ep rest := by
  induction pre with
  | nil => rfl
  | cons r rs ih =>
    obtain ⟨fs, hr, hf⟩ := hpre r (by simp)
    subst hr
    simp only [List.cons_append, scanReleases, JVal.get, exceptOkBind, hf, Bool.false_eq_true,
      if_false, List.append_eq]
    exact ih (fun r hr => hpre r (by simp [hr]))

/-- With a non-empty repo and a successful resolution, the per-entry step of
`_open_issues` is the threshold check followed by the publisher probe. -/
theorem processEntry_resolved (http : HttpOracle) (ex : ExistsOracle) (today : Date)
    (e : Entry) (repo : String) (eol : Date) (reqs : List String)
    (hrepo : e.issue_repo = some repo) (hne : repo ≠ "")
    (hres : resolve_eol http e = (.ok eol, reqs)) :
    processEntry http ex today e =
      if days_until eol today > e.warn_days.getD 30 then (.ok .notDue, reqs)
      else
        match ex repo (TITLE_TMPL e.product e.version eol.isoformat) with
        | .error err => (.error err, reqs)
        | .ok true =>
          (.ok (.alreadyExists repo (TITLE_TMPL e.product e.version eol.isoformat)), reqs)
        | .ok false =>
          (.ok (.created repo (TITLE_TMPL e.product e.version eol.isoformat)
            (BODY_TMPL e.product e.version eol.isoformat (e.api_endpoint.getD "manual entry"))),
           reqs) := by
  unfold processEntry
  rw [hrepo]
  simp only [hne, if_false, hres]

/-- A successfully processed entry contributes its outcome and the loop
continues with the rest of the catalog. -/
theorem openIssuesLoop_cons_ok (http : HttpOracle) (ex : ExistsOracle) (today : Date)
    (e : Entry) (rest : List Entry) (o : EntryOutcome)
    (h : (processEntry http ex today e).1 = .ok o) :
    openIssuesLoop http ex today (e :: rest) =
      (o :: (openIssuesLoop http ex today rest).1, (openIssuesLoop http ex today rest).2) := by
  simp only [openIssuesLoop, h]

/-- An entry whose processing raises unwinds the loop: no outcome is recorded
for it or for any entry after it. -/
theorem openIssuesLoop_cons_err (http : HttpOracle) (ex : ExistsOracle) (today : Date)
    (e : Entry) (rest : List Entry) (err : PyError)
    (h : (processEntry http ex today e).1 = .error err) :
    openIssuesLoop http ex today (e :: rest) = ([], some err) := by
  simp only [openIssuesLoop, h]

/-! ## Claims -/

/-- C1: for a notification-eligible entry whose EOL resolves, and any pair of
dates, the decision engine notifies exactly when
`(resolved_eol - today).days <= warn_days` (default 30); equality triggers,
and there is no lower bound on how far past the EOL may be. -/
theorem c1_notify_iff_within_window (http : HttpOracle) (ex : ExistsOracle) (today : Date)
    (e : Entry) (repo : String) (eol : Date) (reqs : List String) (b : Bool)
    (hrepo : e.issue_repo = some repo) (hne : repo ≠ "")
    (hres : resolve_eol http e = (.ok eol, reqs))
    (hex : ex repo (TITLE_TMPL e.product e.version eol.isoformat) = .ok b) :
    notified (processEntry http ex today e).1 = true ↔
      days_until eol today ≤ e.warn_days.getD 30 := by
  rw [processEntry_resolved http ex today e repo eol reqs hrepo hne hres]
  by_cases hd : days_until eol today > e.warn_days.getD 30
  · rw [if_pos hd]
    constructor
    · intro h
      exact absurd h (by simp [notified])
    · intro h
      omega
  · rw [if_neg hd, hex]
    cases b
    · constructor
      · intro _
        omega
      · intro _
        rfl
    · constructor
      · intro _
        omega
      · intro _
        rfl

/-- C1 witness: scenario 1's entry notifies at the equality boundary
(exactly 30 days out) and when the EOL is decades past. -/
theorem c1_notify_iff_within_window_witness :
    notified (processEntry httpNone exFalse ⟨2023, 12, 2⟩ eFoo).1 = true
  ∧ notified (processEntry httpNone exFalse ⟨2050, 1, 1⟩ eFoo).1 = true
  ∧ days_until ⟨2024, 1, 1⟩ ⟨2023, 12, 2⟩ = 30 :=
  ⟨(c1_notify_iff_within_window httpNone exFalse ⟨2023, 12, 2⟩ eFoo "org/repo" ⟨2024, 1, 1⟩
      [] false rfl (by decide) rfl rfl).mpr (by decide),
   (c1_notify_iff_within_window httpNone exFalse ⟨2050, 1, 1⟩ eFoo "org/repo" ⟨2024, 1, 1⟩
      [] false rfl (by decide) rfl rfl).mpr (by decide),
   by decide⟩

/-- C5: for an entry inside its warning window, a positive existence probe
(open or closed issues alike) suppresses creation — the outcome is
"already exists", its stdout line is printed, and the loop proceeds to the
remaining entries — while a negative probe leads to a create call with the
templated title and body. -/
theorem c5_dedup_suppresses_create (http : HttpOracle) (ex : ExistsOracle) (today : Date)
    (e : Entry) (rest : List Entry) (repo : String) (eol : Date) (reqs : List String)
    (hrepo : e.issue_repo = some repo) (hne : repo ≠ "")
    (hres : resolve_eol http e = (.ok eol, reqs))
    (hdue : days_until eol today ≤ e.warn_days.getD 30) :
    (ex repo (TITLE_TMPL e.product e.version eol.isoformat) = .ok true →
      (processEntry http ex today e).1 =
          .ok (.alreadyExists repo (TITLE_TMPL e.product e.version eol.isoformat))
        ∧ (∀ r t b, (processEntry http ex today e).1 ≠ .ok (.created r t b))
        ∧ outcomeMsg (.alreadyExists repo (TITLE_TMPL e.product e.version eol.isoformat)) =
            ["Issue already exists in " ++ repo ++ ": "
              ++ TITLE_TMPL e.product e.version eol.isoformat]
        ∧ openIssuesLoop http ex today (e :: rest) =
            (.alreadyExists repo (TITLE_TMPL e.product e.version eol.isoformat) ::
               (openIssuesLoop http ex today rest).1,
             (openIssuesLoop http ex today rest).2))
  ∧ (ex repo (TITLE_TMPL e.product e.version eol.isoformat) = .ok false →
      (processEntry http ex today e).1 =
        .ok (.created repo (TITLE_TMPL e.product e.version eol.isoformat)
          (BODY_TMPL e.product e.version eol.isoformat (e.api_endpoint.getD "manual entry")))) := by
  have key := processEntry_resolved http ex today e repo eol reqs hrepo hne hres
  rw [if_neg (not_lt.mpr hdue)] at key
  constructor
  · intro hex
    rw [hex] at key
    refine ⟨by rw [key], ?_, rfl, ?_⟩
    · intro r t b hcon
      rw [key] at hcon
      exact EntryOutcome.noConfusion (Except.ok.inj hcon)
    · exact openIssuesLoop_cons_ok http ex today e rest _ (by rw [key])
  · intro hex
    rw [hex] at key
    rw [key]

/-- C5 witness: scenario 5 — with the probe answering true, scenario 1's
entry yields "already exists" and no create, and the run completes. -/
theorem c5_dedup_suppresses_create_witness :
    (processEntry httpNone exTrue ⟨2023, 12, 15⟩ eFoo).1 =
      .ok (.alreadyExists "org/repo" (TITLE_TMPL "Foo" "1.0" "2024-01-01"))
  ∧ openIssuesLoop httpNone exTrue ⟨2023, 12, 15⟩ [eFoo] =
      ([.alreadyExists "org/repo" (TITLE_TMPL "Foo" "1.0" "2024-01-01")], none) := by
  have h := (c5_dedup_suppresses_create httpNone exTrue ⟨2023, 12, 15⟩ eFoo [] "org/repo"
    ⟨2024, 1, 1⟩ [] rfl (by decide) rfl (by decide)).1 rfl
  exact ⟨h.1, h.2.2.2⟩

/-- C8: an entry with no `issue_repo` field is never notified, regardless of
its EOL date, and is skipped before its EOL is resolved: the notification
flow produces the skip outcome and issues no HTTP request for it. -/
theorem c8_no_repo_skips_before_resolving (http : HttpOracle) (ex : ExistsOracle)
    (today : Date) (e : Entry) (h : e.issue_repo = none) :
    processEntry http ex today e = (.ok .skippedNoRepo, [])
  ∧ notified (processEntry http ex today e).1 = false := by
  have h1 : processEntry http ex today e = (.ok .skippedNoRepo, []) := by
    unfold processEntry
    rw [h]
  exact ⟨h1, by rw [h1]; rfl⟩

/-- C8 witness: the repo-less api entry `eNoRepo`, one day past its upstream
EOL, is skipped with no outcome and no request. -/
theorem c8_no_repo_skips_before_resolving_witness :
    eNoRepo.issue_repo = none
  ∧ processEntry http3 exFalse ⟨2025, 5, 2⟩ eNoRepo = (.ok .skippedNoRepo, []) :=
  ⟨rfl, (c8_no_repo_skips_before_resolving http3 exFalse ⟨2025, 5, 2⟩ eNoRepo rfl).1⟩

/-- C9: a falsy `GH_TOKEN` is fatal to the `open-issues` flow only — exit
status 1, diagnostic on stderr, and no entry processed — while the
`generate-ics` flow never consults the environment (or the publisher, or the
clock). -/
theorem c9_credential_precondition :
    (∀ (env : Env) (http : HttpOracle) (ex : ExistsOracle) (today : Date)
      (entries : List Entry), env.gh_token.getD "" = "" →
      runCLI .openIssues env http ex today entries =
        .issuesResult ⟨1, ["ERROR: GH_TOKEN env var not set"], [], none⟩)
  ∧ (∀ (env1 env2 : Env) (http : HttpOracle) (ex1 ex2 : ExistsOracle)
      (today1 today2 : Date) (entries : List Entry),
      runCLI .generateIcs env1 http ex1 today1 entries =
        runCLI .generateIcs env2 http ex2 today2 entries) := by
  constructor
  · intro env http ex today entries h
    unfold runCLI open_issues
    rw [if_pos h]
  · intro env1 env2 http ex1 ex2 today1 today2 entries
    rfl

/-- C9 witness: with `GH_TOKEN` unset, a run over a catalog that would
otherwise create an issue exits 1 with the diagnostic and an empty trace. -/
theorem c9_credential_precondition_witness :
    runCLI .openIssues ⟨none⟩ httpNone exFalse ⟨2023, 12, 15⟩ [eFoo] =
      .issuesResult ⟨1, ["ERROR: GH_TOKEN env var not set"], [], none⟩ :=
  c9_credential_precondition.1 ⟨none⟩ httpNone exFalse ⟨2023, 12, 15⟩ [eFoo] rfl

/-- C10: only the exact `source` value "manual" selects the manual override;
an absent `source` or any other value (case variants included) takes the API
path, which requires `api_endpoint` (a missing one raises KeyError). -/
theorem c10_source_dispatch (http : HttpOracle) (e : Entry) :
    (e.source = none → resolve_eol http e = resolveApi http e)
  ∧ (∀ s, e.source = some s → s ≠ "manual" → resolve_eol http e = resolveApi http e)
  ∧ (e.source.getD "api" ≠ "manual" → e.api_endpoint = none →
      resolve_eol http e = (.error (.keyError "api_endpoint"), []))
  ∧ (e.source = some "manual" →
      resolve_eol http e =
        (match e.eol_date with
         | none => (.error (.keyError "eol_date"), [])
         | some s => (iso s, []))) := by
  refine ⟨?_, ?_, ?_, ?_⟩
  · intro h
    unfold resolve_eol
    rw [h]
    rfl
  · intro s h hs
    unfold resolve_eol
    rw [h, Option.getD_some, if_neg hs]
  · intro h hep
    unfold resolve_eol resolveApi
    rw [if_neg h, hep]
  · intro h
    unfold resolve_eol
    rw [h, Option.getD_some, if_pos rfl]

/-- C10 witness: the case variant "Manual" takes the API path and fails on
the missing `api_endpoint`, while the exact value "manual" parses `eol_date`. -/
theorem c10_source_dispatch_witness :
    resolve_eol httpNone eCaseVariant = (.error (.keyError "api_endpoint"), [])
  ∧ resolve_eol httpNone eFoo = (.ok ⟨2024, 1, 1⟩, []) :=
  ⟨(c10_source_dispatch httpNone eCaseVariant).2.2.1 (by decide) rfl,
   by rw [(c10_source_dispatch httpNone eFoo).2.2.2 rfl]; rfl⟩

/-- C6 counterexample: with the catalog `[eBad, eGood]`, the first entry's
resolution failure (missing `eol_date`) unwinds the loop and the run records
no outcome at all — even though `eGood` on its own would have had an issue
created.  This refutes "a failure on one entry does not abort processing of
subsequent entries". -/
theorem c6_failure_aborts_counterexample :
    openIssuesLoop httpNone exFalse ⟨2023, 12, 15⟩ [eBad, eGood] =
      ([], some (.keyError "eol_date"))
  ∧ (processEntry httpNone exFalse ⟨2023, 12, 15⟩ eGood).1 =
      .ok (.created "org/r" (TITLE_TMPL "Good" "2" "2020-01-01")
        (BODY_TMPL "Good" "2" "2020-01-01" "manual entry")) :=
  ⟨rfl, rfl⟩

/-- C6 amended: entries are processed sequentially in catalog order — a
successful entry contributes its outcome and the loop continues — but a
resolution or publishing failure on one entry propagates and aborts the run:
no entry after the failing one is processed, in the notification flow and in
the calendar flow alike. -/
theorem c6_sequential_and_failure_aborts (http : HttpOracle) (ex : ExistsOracle)
    (today : Date) (e : Entry) (rest : List Entry) :
    (∀ o, (processEntry http ex today e).1 = .ok o →
      openIssuesLoop http ex today (e :: rest) =
        (o :: (openIssuesLoop http ex today rest).1, (openIssuesLoop http ex today rest).2))
  ∧ (∀ err, (processEntry http ex today e).1 = .error err →
      openIssuesLoop http ex today (e :: rest) = ([], some err))
  ∧ (∀ err, (resolve_eol http e).1 = .error err →
      calendarLoop http (e :: rest) = ([], some err)) :=
  ⟨fun o h => openIssuesLoop_cons_ok http ex today e rest o h,
   fun err h => openIssuesLoop_cons_err http ex today e rest err h,
   fun err h => by simp only [calendarLoop, h]⟩

/-- C6 amended witness: a failing head entry aborts both flows; a succeeding
head entry contributes its outcome and the loop goes on. -/
theorem c6_sequential_and_failure_aborts_witness :
    openIssuesLoop httpNone exFalse ⟨2023, 12, 15⟩ [eBad] = ([], some (.keyError "eol_date"))
  ∧ calendarLoop httpNone [eBad] = ([], some (.keyError "eol_date"))
  ∧ openIssuesLoop httpNone exTrue ⟨2023, 12, 15⟩ [eGood] =
      ([.alreadyExists "org/r" (TITLE_TMPL "Good" "2" "2020-01-01")], none) :=
  ⟨(c6_sequential_and_failure_aborts httpNone exFalse ⟨2023, 12, 15⟩ eBad []).2.1
      (.keyError "eol_date") rfl,
   (c6_sequential_and_failure_aborts httpNone exFalse ⟨2023, 12, 15⟩ eBad []).2.2
      (.keyError "eol_date") rfl,
   (c6_sequential_and_failure_aborts httpNone exTrue ⟨2023, 12, 15⟩ eGood []).1
      (.alreadyExists "org/r" (TITLE_TMPL "Good" "2" "2020-01-01")) rfl⟩

/-- C7 counterexample: a manual-source entry that also carries an
`api_endpoint` key gets the endpoint — not the literal "manual entry" — as
the body's source reference, refuting "equal to 'manual entry' exactly when
source == manual". -/
theorem c7_source_ref_counterexample :
    eManualEp.source = some "manual"
  ∧ (processEntry httpNone exFalse ⟨2023, 12, 15⟩ eManualEp).1 =
      .ok (.created "org/repo" (TITLE_TMPL "Foo" "1.0" "2024-01-01")
        (BODY_TMPL "Foo" "1.0" "2024-01-01" "https://example.com/api"))
  ∧ BODY_TMPL "Foo" "1.0" "2024-01-01" "https://example.com/api" ≠
      BODY_TMPL "Foo" "1.0" "2024-01-01" "manual entry" :=
  ⟨rfl, rfl, by decide⟩

/-- C7 amended: every created issue's body embeds product, version and EOL
date, and its source reference is the entry's `api_endpoint` when that key
is present and the literal "manual entry" exactly when it is absent; since
resolution of a non-manual entry requires `api_endpoint`, "manual entry" can
appear only for manual-source entries (the converse fails only for a manual
entry that also carries `api_endpoint`). -/
theorem c7_body_source_ref (http : HttpOracle) (ex : ExistsOracle) (today : Date)
    (e : Entry) (eol : Date) (reqs : List String) (r t b : String)
    (hres : resolve_eol http e = (.ok eol, reqs))
    (hcr : (processEntry http ex today e).1 = .ok (.created r t b)) :
    b = BODY_TMPL e.product e.version eol.isoformat (e.api_endpoint.getD "manual entry")
  ∧ (e.api_endpoint = none → e.source = some "manual") := by
  constructor
  · cases hrepo : e.issue_repo with
    | none =>
      unfold processEntry at hcr
      rw [hrepo] at hcr
      simp at hcr
    | some repo =>
      by_cases hne : repo = ""
      · unfold processEntry at hcr
        rw [hrepo] at hcr
        simp [hne] at hcr
      · have key := processEntry_resolved http ex today e repo eol reqs hrepo hne hres
        rw [key] at hcr
        by_cases hd : days_until eol today > e.warn_days.getD 30
        · rw [if_pos hd] at hcr
          simp at hcr
        · rw [if_neg hd] at hcr
          cases hex : ex repo (TITLE_TMPL e.product e.version eol.isoformat) with
          | error err =>
            rw [hex] at hcr
            simp at hcr
          | ok bb =>
            rw [hex] at hcr
            cases bb
            · simp only [Except.ok.injEq, EntryOutcome.created.injEq] at hcr
              exact hcr.2.2.symm
            · simp at hcr
  · intro hep
    by_cases hs : e.source.getD "api" = "manual"
    · cases h : e.source with
      | none =>
        rw [h] at hs
        simp at hs
      | some s =>
        rw [h, Option.getD_some] at hs
        exact congrArg some hs
    · unfold resolve_eol resolveApi at hres
      rw [if_neg hs, hep] at hres
      simp at hres

/-- C7 amended witness: the created body for `eManualEp` uses its
`api_endpoint` as the source reference. -/
theorem c7_body_source_ref_witness :
    BODY_TMPL "Foo" "1.0" "2024-01-01" "https://example.com/api" =
      BODY_TMPL eManualEp.product eManualEp.version (Date.mk 2024 1 1).isoformat
        (eManualEp.api_endpoint.getD "manual entry") :=
  (c7_body_source_ref httpNone exFalse ⟨2023, 12, 15⟩ eManualEp ⟨2024, 1, 1⟩ [] "org/repo"
    (TITLE_TMPL "Foo" "1.0" "2024-01-01")
    (BODY_TMPL "Foo" "1.0" "2024-01-01" "https://example.com/api") rfl rfl).1

/-- C2: for an api-source entry whose endpoint responds with a
`result.releases` payload, `_resolve_eol` returns the parsed `eolFrom` of the
first release record, in list order, whose `name` field equals the version
string — exact string comparison, not semantic-version comparison — and it
issues exactly one HTTP request, to `entry.api_endpoint`. -/
theorem c2_api_first_exact_match (http : HttpOracle) (e : Entry) (ep : String)
    (fields fields2 rfs : List (String × JVal)) (pre post : List JVal)
    (s : String) (d : Date)
    (hsrc : e.source = some "api")
    (hep : e.api_endpoint = some ep)
    (hstatus : ¬(400 ≤ (http ep).status ∧ (http ep).status < 600))
    (hbody : (http ep).body = .obj fields)
    (hresult : fields.lookup "result" = some (.obj fields2))
    (hreleases : fields2.lookup "releases" = some (.arr (pre ++ .obj rfs :: post)))
    (hpre : ∀ rel ∈ pre, ∃ fs, rel = .obj fs ∧ pyEqStr (fs.lookup "name") e.version = false)
    (hname : rfs.lookup "name" = some (.str e.version))
    (heol : rfs.lookup "eolFrom" = some (.str s))
    (hs : s ≠ "")
    (hiso : iso s = .ok d) :
    resolve_eol http e = (.ok d, [ep]) := by
  rw [resolve_eol_api_unfold http e ep (by rw [hsrc]; decide) hep hstatus]
  have hrel : getReleases ep (http ep).body = .ok (.arr (pre ++ .obj rfs :: post)) := by
    rw [hbody]
    unfold getReleases
    simp only [JVal.index, hresult, hreleases, exceptOkBind]
  rw [hrel, exceptOkBind]
  have hit : JVal.iterate (.arr (pre ++ .obj rfs :: post)) =
      .ok (pre ++ .obj rfs :: post) := rfl
  rw [hit, exceptOkBind, scanReleases_skip e.product e.version ep pre _ hpre]
  have hmatch : pyEqStr (rfs.lookup "name") e.version = true := by
    rw [hname]
    simp [pyEqStr]
  have hfalsy : JVal.falsy (.str s) = false := by
    simp [JVal.falsy, hs]
  unfold scanReleases
  simp only [JVal.get, exceptOkBind, hmatch, if_true, heol, hfalsy, Bool.false_eq_true,
    if_false, hiso]

/-- C2 witness: scenario 3 — the synthetic payload with a known `eolFrom`
round-trips to exactly that date, over exactly one request to the endpoint. -/
theorem c2_api_first_exact_match_witness :
    resolve_eol http3 eApi = (.ok ⟨2025, 5, 1⟩, ["https://ep"]) :=
  c2_api_first_exact_match http3 eApi "https://ep"
    [("result", .obj [("releases",
        .arr [.obj [("name", .str "2.0"), ("eolFrom", .str "2025-05-01")]])])]
    [("releases", .arr [.obj [("name", .str "2.0"), ("eolFrom", .str "2025-05-01")]])]
    [("name", .str "2.0"), ("eolFrom", .str "2025-05-01")]
    [] [] "2025-05-01" ⟨2025, 5, 1⟩
    rfl rfl (by decide) rfl rfl rfl (by simp) rfl rfl (by decide) rfl

/-- C3 counterexample: a 304 response is non-2xx, yet `raise_for_status`
accepts it (it raises only for 4xx/5xx), so resolution succeeds instead of
raising — refuting "errors whenever the status is non-2xx". -/
theorem c3_non2xx_counterexample :
    (http304 "https://ep").status = 304
  ∧ ¬(200 ≤ (http304 "https://ep").status ∧ (http304 "https://ep").status < 300)
  ∧ resolve_eol http304 eApi = (.ok ⟨2025, 5, 1⟩, ["https://ep"]) :=
  ⟨rfl, by decide, rfl⟩

/-- C3 amended: `_resolve_eol` raises (never silently defaults) when the HTTP
status is 4xx or 5xx (not: any non-2xx); when the payload lacks `result` or
`result.releases` (schema error naming the endpoint); when no release's
`name` matches the version (error naming product, version and endpoint); and
when the matched release's `eolFrom` is missing or empty. -/
theorem c3_resolution_error_cases :
    (∀ (http : HttpOracle) (e : Entry) (ep : String),
      e.source.getD "api" ≠ "manual" → e.api_endpoint = some ep →
      400 ≤ (http ep).status → (http ep).status < 600 →
      resolve_eol http e = (.error (.httpError (http ep).status), [ep]))
  ∧ (∀ (http : HttpOracle) (e : Entry) (ep : String) (fields : List (String × JVal)),
      e.source.getD "api" ≠ "manual" → e.api_endpoint = some ep →
      ¬(400 ≤ (http ep).status ∧ (http ep).status < 600) →
      (http ep).body = .obj fields → fields.lookup "result" = none →
      resolve_eol http e =
        (.error (.valueError ("Unexpected schema from " ++ ep ++ "; expected result.releases")),
         [ep]))
  ∧ (∀ (http : HttpOracle) (e : Entry) (ep : String) (fields fields2 : List (String × JVal)),
      e.source.getD "api" ≠ "manual" → e.api_endpoint = some ep →
      ¬(400 ≤ (http ep).status ∧ (http ep).status < 600) →
      (http ep).body = .obj fields → fields.lookup "result" = some (.obj fields2) →
      fields2.lookup "releases" = none →
      resolve_eol http e =
        (.error (.valueError ("Unexpected schema from " ++ ep ++ "; expected result.releases")),
         [ep]))
  ∧ (∀ (http : HttpOracle) (e : Entry) (ep : String) (fields fields2 : List (String × JVal))
      (rels : List JVal),
      e.source.getD "api" ≠ "manual" → e.api_endpoint = some ep →
      ¬(400 ≤ (http ep).status ∧ (http ep).status < 600) →
      (http ep).body = .obj fields → fields.lookup "result" = some (.obj fields2) →
      fields2.lookup "releases" = some (.arr rels) →
      (∀ rel ∈ rels, ∃ fs, rel = .obj fs ∧ pyEqStr (fs.lookup "name") e.version = false) →
      resolve_eol http e =
        (.error (.valueError (e.product ++ " " ++ e.version ++ " not found @ " ++ ep)), [ep]))
  ∧ (∀ (http : HttpOracle) (e : Entry) (ep : String) (fields fields2 rfs : List (String × JVal))
      (pre post : List JVal),
      e.source.getD "api" ≠ "manual" → e.api_endpoint = some ep →
      ¬(400 ≤ (http ep).status ∧ (http ep).status < 600) →
      (http ep).body = .obj fields → fields.lookup "result" = some (.obj fields2) →
      fields2.lookup "releases" = some (.arr (pre ++ .obj rfs :: post)) →
      (∀ rel ∈ pre, ∃ fs, rel = .obj fs ∧ pyEqStr (fs.lookup "name") e.version = false) →
      rfs.lookup "name" = some (.str e.version) →
      (rfs.lookup "eolFrom" = none ∨ rfs.lookup "eolFrom" = some (.str "")) →
      resolve_eol http e =
        (.error (.valueError ("eolFrom missing for " ++ e.product ++ " " ++ e.version)), [ep])) := by
  refine ⟨?_, ?_, ?_, ?_, ?_⟩
  · intro http e ep hsrc hep h4 h5
    unfold resolve_eol resolveApi
    rw [if_neg hsrc, hep]
    simp only [if_pos (show 400 ≤ (http ep).status ∧ (http ep).status < 600 from ⟨h4, h5⟩)]
  · intro http e ep fields hsrc hep hstatus hbody hresult
    rw [resolve_eol_api_unfold http e ep hsrc hep hstatus]
    have hrel : getReleases ep (http ep).body =
        .error (.valueError ("Unexpected schema from " ++ ep ++ "; expected result.releases")) := by
      rw [hbody]
      unfold getReleases
      simp only [JVal.index, hresult, exceptErrBind]
    rw [hrel, exceptErrBind]
  · intro http e ep fields fields2 hsrc hep hstatus hbody hresult hreleases
    rw [resolve_eol_api_unfold http e ep hsrc hep hstatus]
    have hrel : getReleases ep (http ep).body =
        .error (.valueError ("Unexpected schema from " ++ ep ++ "; expected result.releases")) := by
      rw [hbody]
      unfold getReleases
      simp only [JVal.index, hresult, hreleases, exceptOkBind]
    rw [hrel, exceptErrBind]
  · intro http e ep fields fields2 rels hsrc hep hstatus hbody hresult hreleases hall
    rw [resolve_eol_api_unfold http e ep hsrc hep hstatus]
    have hrel : getReleases ep (http ep).body = .ok (.arr rels) := by
      rw [hbody]
      unfold getReleases
      simp only [JVal.index, hresult, hreleases, exceptOkBind]
    rw [hrel, exceptOkBind]
    have hit : JVal.iterate (.arr rels) = .ok rels := rfl
    rw [hit, exceptOkBind]
    have hnil : rels = rels ++ ([] : List JVal) := (List.append_nil rels).symm
    rw [hnil] at hall ⊢
    rw [scanReleases_skip e.product e.version ep rels [] (by simpa using hall)]
    rfl
  · intro http e ep fields fields2 rfs pre post hsrc hep hstatus hbody hresult hreleases hpre
      hname heol
    rw [resolve_eol_api_unfold http e ep hsrc hep hstatus]
    have hrel : getReleases ep (http ep).body = .ok (.arr (pre ++ .obj rfs :: post)) := by
      rw [hbody]
      unfold getReleases
      simp only [JVal.index, hresult, hreleases, exceptOkBind]
    rw [hrel, exceptOkBind]
    have hit : JVal.iterate (.arr (pre ++ .obj rfs :: post)) =
        .ok (pre ++ .obj rfs :: post) := rfl
    rw [hit, exceptOkBind, scanReleases_skip e.product e.version ep pre _ hpre]
    have hmatch : pyEqStr (rfs.lookup "name") e.version = true := by
      rw [hname]
      simp [pyEqStr]
    unfold scanReleases
    cases heol with
    | inl h =>
      simp only [JVal.get, exceptOkBind, hmatch, if_true, h]
    | inr h =>
      simp only [JVal.get, exceptOkBind, hmatch, if_true, h, JVal.falsy, if_pos]
      simp

/-- C3 amended witness: one concrete run per error case — 404 status, missing
`result`, missing `releases`, no matching release name, and missing
`eolFrom`. -/
theorem c3_resolution_error_cases_witness :
    resolve_eol http404 eApi = (.error (.httpError 404), ["https://ep"])
  ∧ resolve_eol httpBadSchema eApi =
      (.error (.valueError "Unexpected schema from https://ep; expected result.releases"),
       ["https://ep"])
  ∧ resolve_eol httpNoRel eApi =
      (.error (.valueError "Unexpected schema from https://ep; expected result.releases"),
       ["https://ep"])
  ∧ resolve_eol httpNoMatch eApi =
      (.error (.valueError "Bar 2.0 not found @ https://ep"), ["https://ep"])
  ∧ resolve_eol httpNoEol eApi =
      (.error (.valueError "eolFrom missing for Bar 2.0"), ["https://ep"]) := by
  refine ⟨?_, ?_, ?_, ?_, ?_⟩
  · exact c3_resolution_error_cases.1 http404 eApi "https://ep" (by decide) rfl
      (by decide) (by decide)
  · exact c3_resolution_error_cases.2.1 httpBadSchema eApi "https://ep" [("foo", .null)]
      (by decide) rfl (by decide) rfl rfl
  · exact c3_resolution_error_cases.2.2.1 httpNoRel eApi "https://ep"
      [("result", .obj [("x", .null)])] [("x", .null)]
      (by decide) rfl (by decide) rfl rfl rfl
  · exact c3_resolution_error_cases.2.2.2.1 httpNoMatch eApi "https://ep"
      [("result", .obj [("releases", .arr [.obj [("name", .str "9.9")]])])]
      [("releases", .arr [.obj [("name", .str "9.9")]])] [.obj [("name", .str "9.9")]]
      (by decide) rfl (by decide) rfl rfl rfl
      (by
        intro rel hrel
        simp only [List.mem_singleton] at hrel
        exact ⟨[("name", .str "9.9")], hrel, by decide⟩)
  · exact c3_resolution_error_cases.2.2.2.2 httpNoEol eApi "https://ep"
      [("result", .obj [("releases", .arr [.obj [("name", .str "2.0")]])])]
      [("releases", .arr [.obj [("name", .str "2.0")]])] [("name", .str "2.0")] [] []
      (by decide) rfl (by decide) rfl rfl rfl (by simp) rfl (.inl rfl)

/-- The first space splits a character-list concatenation uniquely when
neither leading segment contains a space. -/
theorem append_space_inj (a : List Char) : ∀ (b : List Char) (x y : List Char),
    ' ' ∉ a → ' ' ∉ b → a ++ ' ' :: x = b ++ ' ' :: y → a = b ∧ x = y := by
  induction a with
  | nil =>
    intro b x y _ hb h
    cases b with
    | nil =>
      simp only [List.nil_append] at h
      exact ⟨rfl, (List.cons.inj h).2⟩
    | cons c cs =>
      simp only [List.nil_append, List.cons_append] at h
      have hc := (List.cons.inj h).1
      subst hc
      exact absurd (List.mem_cons_self _ _) hb
  | cons c cs ih =>
    intro b x y ha hb h
    cases b with
    | nil =>
      simp only [List.cons_append, List.nil_append] at h
      have hc := (List.cons.inj h).1
      rw [← hc] at ha
      exact absurd (List.mem_cons_self _ _) ha
    | cons c2 cs2 =>
      simp only [List.cons_append] at h
      obtain ⟨hc, ht⟩ := List.cons.inj h
      obtain ⟨h1, h2⟩ := ih cs2 x y (fun hm => ha (List.mem_cons_of_mem _ hm))
        (fun hm => hb (List.mem_cons_of_mem _ hm)) ht
      exact ⟨by rw [hc, h1], h2⟩

/-- C4: the de-duplication key builder is a pure function of
(product, version, eol_date) — equal triples give the identical title string
`"{product} {version} reaches EOL on {eol_date}"` — and, for typical
product/version strings (no space character, hence not containing the
template's separator text), distinct triples never collide. -/
theorem c4_title_key_pure_injective (p1 v1 d1 p2 v2 d2 : String)
    (hp1 : ' ' ∉ p1.data) (hv1 : ' ' ∉ v1.data)
    (hp2 : ' ' ∉ p2.data) (hv2 : ' ' ∉ v2.data) :
    TITLE_TMPL p1 v1 d1 = TITLE_TMPL p2 v2 d2 ↔ (p1 = p2 ∧ v1 = v2 ∧ d1 = d2) := by
  constructor
  · intro h
    have hdata : p1.data ++ ' ' :: (v1.data ++ ' ' :: ("reaches EOL on ".data ++ d1.data)) =
        p2.data ++ ' ' :: (v2.data ++ ' ' :: ("reaches EOL on ".data ++ d2.data)) := by
      have hd := congrArg String.data h
      simp only [TITLE_TMPL, stringDataAppend, List.append_assoc] at hd
      exact hd
    obtain ⟨hp, hrest⟩ := append_space_inj p1.data p2.data _ _ hp1 hp2 hdata
    obtain ⟨hv, htail⟩ := append_space_inj v1.data v2.data _ _ hv1 hv2 hrest
    have hdd := List.append_cancel_left htail
    exact ⟨String.ext hp, String.ext hv, String.ext hdd⟩
  · rintro ⟨h1, h2, h3⟩
    rw [h1, h2, h3]

/-- C4 witness: concrete space-free triples — equal triples give the same
title, and changing only the date changes the title. -/
theorem c4_title_key_pure_injective_witness :
    (' ' ∉ "Foo".data)
  ∧ (TITLE_TMPL "Foo" "1.0" "2024-01-01" = TITLE_TMPL "Foo" "1.0" "2024-01-02" ↔
      ("Foo" = "Foo" ∧ "1.0" = "1.0" ∧ "2024-01-01" = "2024-01-02")) :=
  ⟨by decide,
   c4_title_key_pure_injective "Foo" "1.0" "2024-01-01" "Foo" "1.0" "2024-01-02"
     (by decide) (by decide) (by decide) (by decide)⟩

end EolCheck
